import Mathlib

/-!
Verification of the two-pass assembler in this repository.

The repository contains two variants of the assembler:
  * src/assembler.py        (stage 1) - class Assembler with first_pass,
    second_pass, assemble, operating on a flat list of byte values;
  * src/assembler-stage2.py (stage 2) - class Assembler with _first_pass,
    _second_pass, assemble, producing structured instruction records.

Both are embedded below, shallowly: the string primitives Python uses
(strip, split, upper, comment stripping, int parsing) are modelled over
List Char with structural recursion so that concrete runs evaluate by
decide or rfl.  Command-line handling and file I/O are out of scope per
the specification; the embedded assemble functions take the source lines
directly, exactly as the Python code processes them after reading.
-/

namespace Py

/-- ASCII whitespace, matching what Python str.strip and str.split treat
as separators for the ASCII inputs relevant here. -/
def isSpace (c : Char) : Bool := c = ' ' || c = '\t' || c = '\n' || c = '\r'

/-- Python str.strip(): remove leading and trailing whitespace. -/
def strip (cs : List Char) : List Char :=
  ((cs.dropWhile isSpace).reverse.dropWhile isSpace).reverse

/-- Comment stripping: both source files truncate a line at the first
semicolon (stage 1 by split, stage 2 by index); a line without a
semicolon is unchanged. -/
def stripComment (cs : List Char) : List Char := cs.takeWhile (fun c => c ≠ ';')

/-- Accumulator for whitespace tokenization. -/
def tokensAux : List Char → List Char → List (List Char)
  | [], acc => if acc.isEmpty then [] else [acc.reverse]
  | c :: cs, acc =>
    if isSpace c then
      if acc.isEmpty then tokensAux cs [] else acc.reverse :: tokensAux cs []
    else tokensAux cs (c :: acc)

/-- Python str.split() with no arguments: split on runs of whitespace,
dropping empty pieces. -/
def tokens (cs : List Char) : List String := (tokensAux cs []).map String.mk

/-- Python str.upper() for the ASCII strings used here. -/
def upper (s : String) : String := String.mk (s.data.map Char.toUpper)

/-- Python source.split at newline, as used by assemble in
src/assembler.py on the source text. -/
def splitLinesAux : List Char → List Char → List String
  | [], acc => [String.mk acc.reverse]
  | c :: cs, acc =>
    if c = '\n' then String.mk acc.reverse :: splitLinesAux cs []
    else splitLinesAux cs (c :: acc)

def splitLines (cs : List Char) : List String := splitLinesAux cs []

/-- Value of a list of decimal digit characters. -/
def digitsVal (cs : List Char) : Nat := cs.foldl (fun a c => a * 10 + (c.toNat - 48)) 0

/-- Python s.isdigit() for ASCII strings: nonempty and all decimal digits. -/
def isDigitStr (s : String) : Bool := !s.data.isEmpty && s.data.all Char.isDigit

def hexDigitVal (c : Char) : Option Nat :=
  if c.isDigit then some (c.toNat - 48)
  else if 'a' ≤ c && c ≤ 'f' then some (c.toNat - 87)
  else if 'A' ≤ c && c ≤ 'F' then some (c.toNat - 55)
  else none

def hexDigitsVal (cs : List Char) : Option Nat :=
  cs.foldl (fun acc c =>
    match acc, hexDigitVal c with
    | some a, some v => some (a * 16 + v)
    | _, _ => none) (some 0)

/-- Unsigned decimal literal body for Python int(s). -/
def decCore (cs : List Char) : Option Nat :=
  if !cs.isEmpty && cs.all Char.isDigit then some (digitsVal cs) else none

/-- Unsigned part of Python int(s, 16): an optional 0x prefix then at least
one hexadecimal digit. -/
def hexCore (cs : List Char) : Option Nat :=
  let ds := match cs with
    | '0' :: 'x' :: rest => rest
    | '0' :: 'X' :: rest => rest
    | rest => rest
  if ds.isEmpty then none else hexDigitsVal ds

def octDigitVal (c : Char) : Option Nat :=
  if '0' ≤ c && c ≤ '7' then some (c.toNat - 48) else none

def octDigitsVal (cs : List Char) : Option Nat :=
  cs.foldl (fun acc c =>
    match acc, octDigitVal c with
    | some a, some v => some (a * 8 + v)
    | _, _ => none) (some 0)

def binDigitsVal (cs : List Char) : Option Nat :=
  cs.foldl (fun acc c =>
    match acc, (if c = '0' then some 0 else if c = '1' then some 1 else none) with
    | some a, some v => some (a * 2 + v)
    | _, _ => none) (some 0)

/-- Unsigned part of Python int(s, 0): base chosen from the literal prefix;
a decimal literal may not have a leading zero unless it denotes zero.
Underscore digit separators and surrounding whitespace are not modelled:
the assembler only applies this to whitespace-free operand tokens. -/
def base0Core (cs : List Char) : Option Nat :=
  match cs with
  | '0' :: 'x' :: rest => if rest.isEmpty then none else hexDigitsVal rest
  | '0' :: 'X' :: rest => if rest.isEmpty then none else hexDigitsVal rest
  | '0' :: 'o' :: rest => if rest.isEmpty then none else octDigitsVal rest
  | '0' :: 'O' :: rest => if rest.isEmpty then none else octDigitsVal rest
  | '0' :: 'b' :: rest => if rest.isEmpty then none else binDigitsVal rest
  | '0' :: 'B' :: rest => if rest.isEmpty then none else binDigitsVal rest
  | rest =>
    if !rest.isEmpty && rest.all Char.isDigit then
      if rest.head? = some '0' && !rest.all (fun c => c = '0') then none
      else some (digitsVal rest)
    else none

/-- Shared sign handling of the Python int conversions. -/
def signed (core : List Char → Option Nat) (s : String) : Option Int :=
  match s.data with
  | '-' :: cs => (core cs).map (fun v => -(v : Int))
  | '+' :: cs => (core cs).map (fun v => (v : Int))
  | cs => (core cs).map (fun v => (v : Int))

/-- Python int(s): decimal conversion. -/
def intDec (s : String) : Option Int := signed decCore s

/-- Python int(s, 16). -/
def intHex (s : String) : Option Int := signed hexCore s

/-- Python int(s, 0): base detected from the prefix. -/
def intBase0 (s : String) : Option Int := signed base0Core s

/-- Python s.startswith with the two characters 0 and x, as both files
test before choosing base-16 conversion. -/
def startsWith0x (s : String) : Bool :=
  match s.data with
  | '0' :: 'x' :: _ => true
  | _ => false

/-- Python s.isidentifier() for ASCII strings: a letter or underscore
followed by letters, digits or underscores. -/
def isIdentifier (s : String) : Bool :=
  match s.data with
  | [] => false
  | c :: cs => (c.isAlpha || c = '_') && cs.all (fun d => d.isAlphanum || d = '_')

end Py

/-- The opcode table self.commands, defined identically in both source
files. -/
def commands (s : String) : Option Nat :=
  if s = "LOAD" then some 0x01
  else if s = "STORE" then some 0x02
  else if s = "ADD" then some 0x03
  else if s = "SUB" then some 0x04
  else if s = "MUL" then some 0x05
  else if s = "DIV" then some 0x06
  else if s = "MOD" then some 0x07
  else if s = "JMP" then some 0x08
  else if s = "JZ" then some 0x09
  else if s = "JNZ" then some 0x0a
  else if s = "CMP" then some 0x0b
  else if s = "CALL" then some 0x0c
  else if s = "RET" then some 0x0d
  else if s = "PUSH" then some 0x0e
  else if s = "POP" then some 0x0f
  else if s = "HALT" then some 0x10
  else none

/-- The register table self.registers, defined identically in both source
files. -/
def registers (s : String) : Option Nat :=
  if s = "A" then some 0
  else if s = "B" then some 1
  else if s = "C" then some 2
  else if s = "D" then some 3
  else none

/-- A Python dict from label names to addresses, as a lookup function;
dict assignment overwrites the previous binding. -/
abbrev Labels := String → Option Nat

def updateLabel (L : Labels) (k : String) (v : Nat) : Labels :=
  fun q => if q = k then some v else L q

/-- The shared per-line preprocessing both files repeat at the top of
every pass: truncate at the first semicolon, then strip whitespace. -/
def cleanLine (line : String) : List Char := Py.strip (Py.stripComment line.data)

/-- The label name a stage 1 label line declares: the line without its
final colon, stripped (first_pass line 134). -/
def stage1LabelName (line : String) : String :=
  String.mk (Py.strip (cleanLine line).dropLast)

/-- The label name a stage 2 label line declares: the text before the
first colon, stripped (_first_pass line 97). -/
def stage2LabelName (line : String) : String :=
  String.mk (Py.strip ((cleanLine line).takeWhile (fun c => c ≠ ':')))

/-- The statement tokens _second_pass derives from a non-label line
(lines 132-142): strip the comment again (a no-op), replace commas by
spaces, strip, and split on whitespace. -/
def stage2Tokens (line : String) : List String :=
  Py.tokens (Py.strip ((Py.stripComment (cleanLine line)).map
    (fun c => if c = ',' then ' ' else c)))

namespace Stage2

/-!
Embedding of src/assembler-stage2.py.  The Python class accumulates
self.instructions, self.labels, self.errors; assemble runs _first_pass
then _second_pass over the same lines.  Diagnostics are represented by
one constructor per errors.append site, carrying the interpolated data
of the corresponding message (line number first).
-/

inductive Diag where
  | unknownCommand (line : Nat) (cmd : String)
  | badRegister (line : Nat) (reg : Option String)
  | noLabel (line : Nat) (cmd : String)
  | unknownLabel (line : Nat) (label : String)
  | cmpBadRegisters (line : Nat)
  | badRegisterFor (line : Nat) (reg : String) (cmd : String)
  | arity (line : Nat) (cmd : String)
  | rangeOperand (line : Nat) (cmd : String)
  | rangeValue (line : Nat)
  | rangeAddress (line : Nat)
  | parseFailure (line : Nat)
deriving DecidableEq

/-- One instruction record, matching the dict appended to
self.instructions in _second_pass. -/
structure Instr where
  mnemonic : String
  opcode : Nat
  operands : List Nat
  line : Nat
  address : Nat
deriving DecidableEq

/-- The per-command byte width charged by _first_pass (lines 107-112):
HALT and RET one byte, PUSH and POP two, every other recognized command
three. -/
def widthOf (command : String) : Nat :=
  if command = "HALT" || command = "RET" then 1
  else if command = "PUSH" || command = "POP" then 2
  else 3

/-- _first_pass (lines 81-112): strip comments and whitespace, register
any line containing a colon as a label (name is the text before the
first colon, stripped) at the current address without validation, and
advance the address by widthOf for recognized commands.  It never
appends diagnostics.  The line counter of enumerate is unused there and
omitted. -/
def firstPassAux (addr : Nat) : List String → Labels → Labels
  | [], L => L
  | line :: rest, L =>
    let l := cleanLine line
    if l.isEmpty then firstPassAux addr rest L
    else if l.contains ':' then
      firstPassAux addr rest (updateLabel L (stage2LabelName line) addr)
    else
      match Py.tokens l with
      | [] => firstPassAux addr rest L
      | p0 :: _ =>
        if (commands (Py.upper p0)).isSome then
          firstPassAux (addr + widthOf (Py.upper p0)) rest L
        else firstPassAux addr rest L

/-- Operand of JMP, JZ, JNZ, CALL (lines 177-183): a known label resolves
to its recorded address, otherwise an all-digit token to its decimal
value. -/
def jumpTarget (L : Labels) (label : String) : Option Nat :=
  match L label with
  | some a => some a
  | none => if Py.isDigitStr label then some (Py.digitsVal label.data) else none

/-- Second operand of ADD, SUB, MUL, DIV, MOD and of LOAD (lines 215-220
and 242-247, identical logic): a register name, case-insensitively, used
as its index, else a 0x hexadecimal or plain decimal literal. -/
def regOrNumValue (t : String) : Option Int :=
  match registers (Py.upper t) with
  | some i => some (i : Int)
  | none => if Py.startsWith0x t then Py.intHex t else Py.intDec t

/-- STORE address operand (lines 269-272): 0x hexadecimal or decimal
literal, no register branch. -/
def numLiteral (t : String) : Option Int :=
  if Py.startsWith0x t then Py.intHex t else Py.intDec t

/-- The body of the _second_pass loop from command dispatch onward
(lines 146-287), for one tokenized statement p0 :: args: either the
single diagnostic the Python code appends before continue (a ValueError
from int surfaces as the except branch, line 293) or the instruction
record it appends.  No path does both. -/
def execLine (L : Labels) (n addr : Nat) (p0 : String) (args : List String) :
    Except Diag Instr :=
  let command := Py.upper p0
  match commands command with
  | none => .error (.unknownCommand n command)
  | some opcode =>
    if command = "HALT" || command = "RET" then
      .ok ⟨command, opcode, [], n, addr⟩
    else if command = "PUSH" || command = "POP" then
      match args with
      | [] => .error (.badRegister n none)
      | r :: _ =>
        match registers (Py.upper r) with
        | none => .error (.badRegister n (some (Py.upper r)))
        | some ri => .ok ⟨command, opcode, [ri], n, addr⟩
    else if command = "JMP" || command = "JZ" || command = "JNZ" || command = "CALL" then
      match args with
      | [] => .error (.noLabel n command)
      | lbl :: _ =>
        match jumpTarget L lbl with
        | some a => .ok ⟨command, opcode, [a], n, addr⟩
        | none => .error (.unknownLabel n lbl)
    else if command = "CMP" then
      match args with
      | r1 :: r2 :: _ =>
        match registers (Py.upper r1), registers (Py.upper r2) with
        | some a, some b => .ok ⟨command, opcode, [a, b], n, addr⟩
        | _, _ => .error (.cmpBadRegisters n)
      | _ => .error (.arity n command)
    else if command = "ADD" || command = "SUB" || command = "MUL"
        || command = "DIV" || command = "MOD" then
      match args with
      | r1 :: o2 :: _ =>
        match registers (Py.upper r1) with
        | none => .error (.badRegisterFor n (Py.upper r1) command)
        | some a =>
          match regOrNumValue o2 with
          | none => .error (.parseFailure n)
          | some v =>
            if 0 ≤ v ∧ v ≤ 255 then .ok ⟨command, opcode, [a, v.toNat], n, addr⟩
            else .error (.rangeOperand n command)
      | _ => .error (.arity n command)
    else if command = "LOAD" then
      match args with
      | r :: t :: _ =>
        match registers (Py.upper r) with
        | none => .error (.badRegister n (some (Py.upper r)))
        | some a =>
          match regOrNumValue t with
          | none => .error (.parseFailure n)
          | some v =>
            if 0 ≤ v ∧ v ≤ 255 then .ok ⟨command, opcode, [a, v.toNat], n, addr⟩
            else .error (.rangeValue n)
      | _ => .error (.arity n command)
    else
      match args with
      | r :: t :: _ =>
        match registers (Py.upper r) with
        | none => .error (.badRegister n (some (Py.upper r)))
        | some a =>
          match numLiteral t with
          | none => .error (.parseFailure n)
          | some v =>
            if 0 ≤ v ∧ v ≤ 65535 then
              .ok ⟨command, opcode, [a, v.toNat % 256, v.toNat / 256 % 256], n, addr⟩
            else .error (.rangeAddress n)
      | _ => .error (.arity n command)

/-- _second_pass (lines 114-293): strip comments and whitespace, skip
empty lines and lines containing a colon, normalize commas to spaces,
tokenize, then run the statement through execLine; an instruction
advances the address by one plus its operand count, a diagnostic leaves
it unchanged. -/
def secondPassAux (L : Labels) (n addr : Nat) : List String → List Instr × List Diag
  | [] => ([], [])
  | line :: rest =>
    let l1 := cleanLine line
    if l1.isEmpty then secondPassAux L (n + 1) addr rest
    else if l1.contains ':' then secondPassAux L (n + 1) addr rest
    else
      match stage2Tokens line with
      | [] => secondPassAux L (n + 1) addr rest
      | p0 :: args =>
        match execLine L n addr p0 args with
        | .error d =>
          let r := secondPassAux L (n + 1) addr rest
          (r.1, d :: r.2)
        | .ok i =>
          let r := secondPassAux L (n + 1) (addr + 1 + i.operands.length) rest
          (i :: r.1, r.2)

/-- The mutable fields of the stage 2 Assembler object that the passes
touch (source_lines is only stored for display and omitted). -/
structure Asm where
  instructions : List Instr
  labels : Labels
  errors : List Diag

def initState : Asm := ⟨[], fun _ => none, []⟩

/-- assemble (lines 57-79) minus the file reading and the error
printing: run _first_pass then _second_pass on the lines, appending to
the object fields; both passes restart their local address counter at
zero and line numbering at one. -/
def assemble (s : Asm) (lines : List String) : Asm :=
  let L := firstPassAux 0 lines s.labels
  ⟨s.instructions ++ (secondPassAux L 1 0 lines).1, L,
    s.errors ++ (secondPassAux L 1 0 lines).2⟩

/-- get_machine_code (lines 297-314): opcode then operands of each
instruction in order. -/
def machineCode (is : List Instr) : List Nat :=
  (is.map (fun i => i.opcode :: i.operands)).flatten

end Stage2

namespace Stage1

/-!
Embedding of src/assembler.py.  The class accumulates self.instructions
(a flat list of byte values), self.labels, self.errors and
self.warnings; first_pass and second_pass return False and stop at the
first error.  Diagnostics again get one constructor per append site.
-/

inductive Diag where
  | badLabelName (line : Nat) (label : String)
  | duplicateLabel (line : Nat) (label : String)
  | unknownCommand (line : Nat) (cmd : String)
  | badOperand (line : Nat) (operand : String)
  | truncated (line : Nat) (value : Int)
deriving DecidableEq

structure Asm where
  instructions : List Nat
  labels : Labels
  errors : List Diag
  warnings : List Diag

def initState : Asm := ⟨[], fun _ => none, [], []⟩

/-- is_valid_identifier (lines 101-103): a Python identifier whose
uppercasing is not a mnemonic. -/
def isValidIdentifier (s : String) : Bool :=
  Py.isIdentifier s && !(commands (Py.upper s)).isSome

/-- is_valid_number (lines 93-99): int(s, 0) succeeds. -/
def isValidNumber (s : String) : Bool := (Py.intBase0 s).isSome

/-- operand.rstrip(',').strip() as in second_pass line 196. -/
def operandClean (s : String) : String :=
  String.mk (Py.strip ((s.data.reverse.dropWhile (fun c => c = ',')).reverse))

/-- first_pass (lines 116-162): a trimmed line ending in a colon is a
label declaration; an invalid name or a duplicate appends one error and
returns False at once.  A valid new label is recorded at the current
instruction count.  Other lines must start with a known mnemonic (else
one error, return False) and push a placeholder onto instructions. -/
def firstPassAux : Asm → Nat → List String → Asm × Bool
  | s, _, [] => (s, true)
  | s, n, line :: rest =>
    let l := cleanLine line
    if l.isEmpty then firstPassAux s (n + 1) rest
    else if l.getLast? = some ':' then
      let label := stage1LabelName line
      if !isValidIdentifier label then
        ({ s with errors := s.errors ++ [.badLabelName n label] }, false)
      else if (s.labels label).isSome then
        ({ s with errors := s.errors ++ [.duplicateLabel n label] }, false)
      else
        firstPassAux
          { s with labels := updateLabel s.labels label s.instructions.length }
          (n + 1) rest
    else
      match Py.tokens l with
      | [] => firstPassAux s (n + 1) rest
      | p0 :: _ =>
        if (commands (Py.upper p0)).isNone then
          ({ s with errors := s.errors ++ [.unknownCommand n (Py.upper p0)] }, false)
        else
          firstPassAux { s with instructions := s.instructions ++ [0] } (n + 1) rest

/-- The operand loop of second_pass (lines 195-218): a label resolves to
its address, a register (case-sensitive lookup) to its index, a numeric
literal is appended masked to one byte - with a warning when it exceeds
255 - and anything else appends one error and returns False. -/
def encOperands : Asm → Nat → List String → Asm × Bool
  | s, _, [] => (s, true)
  | s, n, op :: rest =>
    let oc := operandClean op
    match s.labels oc with
    | some a => encOperands { s with instructions := s.instructions ++ [a] } n rest
    | none =>
      match registers oc with
      | some r => encOperands { s with instructions := s.instructions ++ [r] } n rest
      | none =>
        match Py.intBase0 oc with
        | some v =>
          if v > 255 then
            encOperands
              { s with instructions := s.instructions ++ [(v % 256).toNat],
                       warnings := s.warnings ++ [.truncated n v] } n rest
          else
            encOperands { s with instructions := s.instructions ++ [(v % 256).toNat] } n rest
        | none => ({ s with errors := s.errors ++ [.badOperand n oc] }, false)

/-- second_pass (lines 164-220): skip blank lines and label lines
(trimmed line ending in a colon); skip lines with unknown mnemonics (the
first pass already rejected them); otherwise append the opcode and
encode the operand tokens.  A failed operand aborts the whole pass. -/
def secondPassAux : Asm → Nat → List String → Asm × Bool
  | s, _, [] => (s, true)
  | s, n, line :: rest =>
    let l := cleanLine line
    if l.isEmpty then secondPassAux s (n + 1) rest
    else if l.getLast? = some ':' then secondPassAux s (n + 1) rest
    else
      match Py.tokens l with
      | [] => secondPassAux s (n + 1) rest
      | p0 :: ops =>
        match commands (Py.upper p0) with
        | none => secondPassAux s (n + 1) rest
        | some opc =>
          match encOperands { s with instructions := s.instructions ++ [opc] } n ops with
          | (s2, true) => secondPassAux s2 (n + 1) rest
          | (s2, false) => (s2, false)

/-- assemble (lines 222-236): split the source text into lines, clear
instructions, run first_pass (stop on failure), clear instructions
again, run second_pass.  Labels, errors and warnings persist on the
object across calls. -/
def assemble (s : Asm) (source : String) : Asm × Bool :=
  let lines := Py.splitLines source.data
  match firstPassAux { s with instructions := [] } 1 lines with
  | (s1, false) => (s1, false)
  | (s1, true) => secondPassAux { s1 with instructions := [] } 1 lines

end Stage1

/-!
Claim theorems.  Each theorem carries the claim id from CLAIMS.json.
-/

/-- The forward-reference scenario program of the specification. -/
def forwardScenario : List String :=
  ["START:", "LOAD A 5", "LOAD B 10", "ADD A B", "JZ END", "JMP START", "END:", "HALT"]

/-- C1: on the forward-reference program the stage 2 first pass records
END at address 15 (it charges three bytes for JZ and JMP), while the
second pass emits two bytes for each jump, so the HALT record - the
first instruction after END - carries starting address 13, not 15: the
pass 1 address of a label does not equal the address field of the next
emitted instruction, and the pass 1 width table disagrees with the bytes
pass 2 emits. -/
theorem c1_pass1_pass2_address_mismatch :
    (Stage2.assemble Stage2.initState forwardScenario).labels "END" = some 15 ∧
    (Stage2.assemble Stage2.initState forwardScenario).instructions.map
      (fun i => (i.mnemonic, i.address)) =
      [("LOAD", 0), ("LOAD", 3), ("ADD", 6), ("JZ", 9), ("JMP", 11), ("HALT", 13)] ∧
    (Stage2.machineCode
      (Stage2.assemble Stage2.initState forwardScenario).instructions).length = 14 := by
  refine ⟨by decide, by decide, by decide⟩

/-- C2: the stage 2 assembler resolves START to 0 and END to 15 on the
forward-reference program and produces exactly the byte stream
01 00 05 01 01 0a 03 00 01 09 0f 08 00 10, with no diagnostics. -/
theorem c2_forward_reference_scenario :
    (Stage2.assemble Stage2.initState forwardScenario).labels "START" = some 0 ∧
    (Stage2.assemble Stage2.initState forwardScenario).labels "END" = some 15 ∧
    Stage2.machineCode (Stage2.assemble Stage2.initState forwardScenario).instructions =
      [0x01, 0x00, 0x05, 0x01, 0x01, 0x0a, 0x03, 0x00, 0x01, 0x09, 0x0f, 0x08, 0x00, 0x10] ∧
    (Stage2.assemble Stage2.initState forwardScenario).errors = [] := by
  refine ⟨by decide, by decide, by decide, by decide⟩

/-- C3 counterexample: the stage 1 assembler on LOAD A, 256 records no
error at all - it appends a truncation warning and emits the wrapped
byte 0 (instructions 01 00 00), and assembly reports success. -/
theorem c3_stage1_wraps_256 :
    (Stage1.assemble Stage1.initState "LOAD A, 256").1.errors = [] ∧
    (Stage1.assemble Stage1.initState "LOAD A, 256").1.instructions = [0x01, 0x00, 0x00] ∧
    (Stage1.assemble Stage1.initState "LOAD A, 256").1.warnings = [.truncated 1 256] ∧
    (Stage1.assemble Stage1.initState "LOAD A, 256").2 = true := by
  refine ⟨by decide, by decide, by decide, by decide⟩

/-- C4 counterexample: the stage 2 assembler on a program with a
duplicate label produces no duplicate-label diagnostic at all - the
errors list stays empty and the second definition silently overwrites
the first (X is rebound to address 0, the address of both lines). -/
theorem c4_stage2_no_duplicate_error :
    (Stage2.assemble Stage2.initState ["X:", "X:", "HALT"]).errors = [] ∧
    (Stage2.assemble Stage2.initState ["X:", "X:", "HALT"]).labels "X" = some 0 := by
  refine ⟨by decide, by decide⟩

/-- C5 counterexample: the stage 1 assembler on STORE A 300 does not
emit the four claimed bytes - it emits the three bytes 02 00 2c,
masking the address into a single byte. -/
theorem c5_stage1_three_bytes :
    (Stage1.assemble Stage1.initState "STORE A 300").1.instructions ≠
      [0x02, 0x00, 0x2c, 0x01] ∧
    (Stage1.assemble Stage1.initState "STORE A 300").1.instructions = [0x02, 0x00, 0x2c] := by
  refine ⟨by decide, by decide⟩

/-- C5 amended: the stage 2 assembler encodes STORE A 300 as the four
bytes 02 00 2c 01 (little-endian wide address) with no diagnostics,
while the stage 1 assembler emits 02 00 2c with a truncation warning. -/
theorem c5_store_wide_address :
    Stage2.machineCode (Stage2.assemble Stage2.initState ["STORE A 300"]).instructions =
      [0x02, 0x00, 0x2c, 0x01] ∧
    (Stage2.assemble Stage2.initState ["STORE A 300"]).errors = [] ∧
    (Stage1.assemble Stage1.initState "STORE A 300").1.instructions = [0x02, 0x00, 0x2c] ∧
    (Stage1.assemble Stage1.initState "STORE A 300").1.warnings = [.truncated 1 300] := by
  refine ⟨by decide, by decide, by decide, by decide⟩

/-- C6 counterexample: the stage 1 assembler on a program whose first
and second lines both carry a bad operand reports only the first line
and aborts pass 2: a single run does not surface an error for every
faulty line. -/
theorem c6_stage1_aborts_on_first_error :
    (Stage1.assemble Stage1.initState "LOAD A !\nLOAD B ?").1.errors =
      [.badOperand 1 "!"] ∧
    (Stage1.assemble Stage1.initState "LOAD A !\nLOAD B ?").2 = false := by
  refine ⟨by decide, by decide⟩

/-- C7 counterexample: the stage 2 assembler on JMP 300 - a jump target
above 255 - records no diagnostic and stores the unreduced value 300 as
the operand of the emitted instruction. -/
theorem c7_stage2_no_range_check :
    (Stage2.assemble Stage2.initState ["JMP 300"]).errors = [] ∧
    Stage2.machineCode (Stage2.assemble Stage2.initState ["JMP 300"]).instructions =
      [0x08, 300] := by
  refine ⟨by decide, by decide⟩

/-- C8 counterexample: the stage 2 assembler registers the invalid label
name 1X (not an identifier) without any diagnostic, and it treats the
line X: HALT - which does not end in a colon - as a label declaration,
emitting no instruction for it. -/
theorem c8_stage2_label_classification :
    (Stage2.assemble Stage2.initState ["1X:"]).labels "1X" = some 0 ∧
    (Stage2.assemble Stage2.initState ["1X:"]).errors = [] ∧
    (Stage2.assemble Stage2.initState ["X: HALT"]).labels "X" = some 0 ∧
    Stage2.machineCode (Stage2.assemble Stage2.initState ["X: HALT"]).instructions = [] := by
  refine ⟨by decide, by decide, by decide, by decide⟩

/-- C9 counterexample: calling assemble twice on the same stage 2 object
does not behave like the first call - after the second call on the one
line HALT the machine code is 10 10, twice the byte stream of the first
call. -/
theorem c9_second_call_differs :
    Stage2.machineCode (Stage2.assemble Stage2.initState ["HALT"]).instructions = [0x10] ∧
    Stage2.machineCode
      (Stage2.assemble (Stage2.assemble Stage2.initState ["HALT"]) ["HALT"]).instructions =
      [0x10, 0x10] := by
  refine ⟨by decide, by decide⟩

/-- C10 counterexample: the stage 1 assembler rejects a lowercase
register token as the second LOAD operand - LOAD A b yields an invalid
operand error and assembly fails - so register operands are not
accepted case-insensitively there. -/
theorem c10_stage1_case_sensitive :
    (Stage1.assemble Stage1.initState "LOAD A b").1.errors = [.badOperand 1 "b"] ∧
    (Stage1.assemble Stage1.initState "LOAD A b").2 = false := by
  refine ⟨by decide, by decide⟩

/-!
General theorems about the passes, with supporting lemmas.
-/

/-- Number of machine-code bytes a list of instruction records emits. -/
def bytesLen (is : List Stage2.Instr) : Nat := (Stage2.machineCode is).length

/-- The sequence of dict assignments the stage 2 _first_pass performs on
self.labels, in execution order, as a key-value list. -/
def updatesOf (addr : Nat) : List String → List (String × Nat)
  | [] => []
  | line :: rest =>
    let l := cleanLine line
    if l.isEmpty then updatesOf addr rest
    else if l.contains ':' then
      (stage2LabelName line, addr) :: updatesOf addr rest
    else
      match Py.tokens l with
      | [] => updatesOf addr rest
      | p0 :: _ =>
        if (commands (Py.upper p0)).isSome then
          updatesOf (addr + Stage2.widthOf (Py.upper p0)) rest
        else updatesOf addr rest

/-- Replay a list of dict assignments over a label table. -/
def applyUpds (L : Labels) : List (String × Nat) → Labels
  | [] => L
  | kv :: us => applyUpds (updateLabel L kv.1 kv.2) us

theorem firstPassAux_eq_applyUpds (lines : List String) :
    ∀ (addr : Nat) (L : Labels),
    Stage2.firstPassAux addr lines L = applyUpds L (updatesOf addr lines) := by
  induction lines with
  | nil => intro addr L; simp [Stage2.firstPassAux, updatesOf, applyUpds]
  | cons x rest ih =>
    intro addr L
    simp only [Stage2.firstPassAux, updatesOf]
    split
    · exact ih addr L
    · split
      · simp only [applyUpds]; exact ih addr _
      · split
        · exact ih addr L
        · split
          · exact ih _ L
          · exact ih addr L

/-- The last value a list of dict assignments gives to key k, if any. -/
def lastVal : List (String × Nat) → String → Option Nat
  | [], _ => none
  | kv :: us, k =>
    match lastVal us k with
    | some v => some v
    | none => if k = kv.1 then some kv.2 else none

theorem applyUpds_apply (us : List (String × Nat)) :
    ∀ (L : Labels) (k : String),
    applyUpds L us k = match lastVal us k with | some v => some v | none => L k := by
  induction us with
  | nil => intro L k; simp [applyUpds, lastVal]
  | cons kv us ih =>
    intro L k
    simp only [applyUpds, lastVal]
    rw [ih]
    cases h : lastVal us k with
    | some v => simp
    | none =>
      simp only [updateLabel]
      split <;> simp

/-- Replaying the same assignment sequence a second time leaves the
label table unchanged. -/
theorem applyUpds_idem (us : List (String × Nat)) (L : Labels) :
    applyUpds (applyUpds L us) us = applyUpds L us := by
  funext k
  rw [applyUpds_apply, applyUpds_apply]
  cases h : lastVal us k with
  | some v => simp
  | none => simp [applyUpds_apply, h]

/-- C3 amended: the stage 2 assembler does reject an out-of-range LOAD
immediate: on a statement whose tokens are a LOAD command, a valid
register and an operand parsing to a value above 255, the encoder
returns the range diagnostic and the pass appends exactly that
diagnostic and no instruction record - hence no wrapped byte - before
continuing with the remaining lines.  (The stage 1 assembler wraps
instead, per the counterexample.) -/
theorem c3_stage2_load_range_error (L : Labels) (n addr : Nat) (line : String)
    (rest : List String) (cmd r t : String) (ri : Nat) (v : Int)
    (hne : (cleanLine line).isEmpty = false)
    (hnc : (cleanLine line).contains ':' = false)
    (htok : stage2Tokens line = [cmd, r, t])
    (hcmd : Py.upper cmd = "LOAD")
    (hr : registers (Py.upper r) = some ri)
    (hv : Stage2.regOrNumValue t = some v)
    (h255 : 255 < v) :
    Stage2.execLine L n addr cmd [r, t] = .error (.rangeValue n) ∧
    Stage2.secondPassAux L n addr (line :: rest) =
      ((Stage2.secondPassAux L (n + 1) addr rest).1,
        .rangeValue n :: (Stage2.secondPassAux L (n + 1) addr rest).2) := by
  have hex : Stage2.execLine L n addr cmd [r, t] = .error (.rangeValue n) := by
    have hcond : ¬(0 ≤ v ∧ v ≤ 255) := by omega
    simp [Stage2.execLine, hcmd, hr, hv, hcond, commands]
  refine ⟨hex, ?_⟩
  have hmem : ':' ∉ cleanLine line := by simpa using hnc
  simp [Stage2.secondPassAux, hne, hmem, htok, hex]

/-- C3 amended, witness: LOAD A, 256 on an empty label table yields
exactly the range diagnostic and no instruction. -/
theorem c3_stage2_load_range_error_witness :
    Stage2.secondPassAux (fun _ => none) 1 0 ["LOAD A, 256"] =
      ([], [.rangeValue 1]) :=
  (c3_stage2_load_range_error (fun _ => none) 1 0 "LOAD A, 256" [] "LOAD" "A" "256"
    0 256 (by decide) (by decide) (by decide) (by decide) (by decide) (by decide)
    (by decide)).2

/-- C4 amended: in the stage 1 assembler a line redeclaring an already
registered label (valid identifier, trimmed line ending in a colon)
makes first_pass append exactly one duplicate-label error and return
False immediately - the remaining lines are not scanned.  (The stage 2
assembler records no diagnostic at all, per the counterexample.) -/
theorem c4_stage1_duplicate_stops (s : Stage1.Asm) (n : Nat) (line : String)
    (rest : List String) (a : Nat)
    (h1 : (cleanLine line).getLast? = some ':')
    (h2 : Stage1.isValidIdentifier (stage1LabelName line) = true)
    (h3 : s.labels (stage1LabelName line) = some a) :
    Stage1.firstPassAux s n (line :: rest) =
      ({ s with errors := s.errors ++ [.duplicateLabel n (stage1LabelName line)] },
        false) := by
  have hne : (cleanLine line).isEmpty = false := by
    cases hcl : cleanLine line with
    | nil => rw [hcl] at h1; simp at h1
    | cons c cs => simp
  simp [Stage1.firstPassAux, hne, h1, h2, h3]

/-- C4 amended, witness: a second declaration of X stops pass 1 with the
one duplicate error, ignoring the rest of the program. -/
theorem c4_stage1_duplicate_stops_witness :
    Stage1.firstPassAux ⟨[], updateLabel (fun _ => none) "X" 0, [], []⟩ 2
        ["X:", "HALT"] =
      (⟨[], updateLabel (fun _ => none) "X" 0, [.duplicateLabel 2 "X"], []⟩, false) :=
  c4_stage1_duplicate_stops ⟨[], updateLabel (fun _ => none) "X" 0, [], []⟩ 2
    "X:" ["HALT"] 0 (by decide) (by decide) (by decide)

/-- C6 amended: the stage 2 second pass is compositional: the
instructions and diagnostics of a concatenated program are those of the
prefix followed by those of the suffix (processed at the shifted line
number and address).  In particular a failure inside the prefix never
aborts processing of the suffix, and every line contributes its own
diagnostics; the embedding is a total function, so no exception escapes
the encoder.  (The stage 1 assembler aborts at the first bad operand,
per the counterexample.) -/
theorem c6_stage2_pass2_compositional (L : Labels) (n addr : Nat)
    (xs ys : List String) :
    Stage2.secondPassAux L n addr (xs ++ ys) =
      ((Stage2.secondPassAux L n addr xs).1 ++
        (Stage2.secondPassAux L (n + xs.length)
          (addr + bytesLen (Stage2.secondPassAux L n addr xs).1) ys).1,
       (Stage2.secondPassAux L n addr xs).2 ++
        (Stage2.secondPassAux L (n + xs.length)
          (addr + bytesLen (Stage2.secondPassAux L n addr xs).1) ys).2) := by
  induction xs generalizing n addr with
  | nil => simp [Stage2.secondPassAux, bytesLen, Stage2.machineCode]
  | cons x xs ih =>
    simp only [List.cons_append, Stage2.secondPassAux, List.length_cons, List.append_eq]
    split
    · rw [ih]; ring_nf
    · split
      · rw [ih]; ring_nf
      · split
        · rw [ih]; ring_nf
        · split
          · rw [ih]
            simp only [bytesLen, Stage2.machineCode, List.map_cons, List.flatten_cons,
              List.length_append, List.length_cons]
            ring_nf
            rw [List.cons_append]
          · rw [ih]
            simp only [bytesLen, Stage2.machineCode, List.map_cons, List.flatten_cons,
              List.length_append, List.length_cons]
            ring_nf
            rw [List.cons_append]

/-- C7 amended: the stage 2 encoder performs no range check on jump and
call targets: whatever value the target resolves to - a label address
from pass 1 or an all-digit literal, of any magnitude - it emits an
instruction whose single operand entry is that full value, with no
diagnostic.  (The stage 1 assembler masks such values to one byte with
only a warning, per its counterexamples under other claims.) -/
theorem c7_jump_target_unchecked (L : Labels) (n addr : Nat) (p0 lbl : String)
    (rest : List String) (v opc : Nat)
    (hp0 : Py.upper p0 = "JMP" ∨ Py.upper p0 = "JZ" ∨ Py.upper p0 = "JNZ" ∨
      Py.upper p0 = "CALL")
    (hop : commands (Py.upper p0) = some opc)
    (ht : Stage2.jumpTarget L lbl = some v) :
    Stage2.execLine L n addr p0 (lbl :: rest) =
      .ok ⟨Py.upper p0, opc, [v], n, addr⟩ := by
  rcases hp0 with h | h | h | h <;>
    (rw [h] at hop ⊢; simp [commands] at hop; subst hop;
      simp [Stage2.execLine, h, ht, commands])

/-- C7 amended, witness: JMP 300 encodes as opcode 8 with operand entry
300 and no diagnostic, although 300 does not fit in one byte. -/
theorem c7_jump_target_unchecked_witness :
    Stage2.execLine (fun _ => none) 1 0 "JMP" ["300"] =
      .ok ⟨"JMP", 0x08, [300], 1, 0⟩ :=
  c7_jump_target_unchecked (fun _ => none) 1 0 "JMP" "300" [] 300 0x08
    (Or.inl (by decide)) (by decide) (by decide)

/-- C8 amended: in the stage 1 assembler the claim holds, in both
directions of the classification.  If the trimmed line ends in a colon
it is a label declaration: with a valid, fresh name pass 1 registers it
at the current instruction count and moves on, with an invalid name
(not an identifier, or a mnemonic - see isValidIdentifier) it appends
an error and does not register it, and pass 2 excludes the line from
the statement stream.  Conversely, a nonempty trimmed line that does
not end in a colon is never treated as a label: pass 1 takes the
command path - pushing a placeholder for a known mnemonic, or appending
an unknown-command error, the label table untouched either way - and
pass 2 keeps the line in the statement stream, appending its opcode and
encoding its operand tokens.  (The stage 2 assembler instead classifies
any line containing a colon as a label and validates nothing, per the
counterexample.) -/
theorem c8_stage1_label_rules (s : Stage1.Asm) (n : Nat) (line : String)
    (rest : List String) :
    ((cleanLine line).getLast? = some ':' →
      (Stage1.isValidIdentifier (stage1LabelName line) = true →
        s.labels (stage1LabelName line) = none →
        Stage1.firstPassAux s n (line :: rest) =
          Stage1.firstPassAux
            { s with
              labels := updateLabel s.labels (stage1LabelName line) s.instructions.length }
            (n + 1) rest) ∧
      (Stage1.isValidIdentifier (stage1LabelName line) = false →
        Stage1.firstPassAux s n (line :: rest) =
          ({ s with errors := s.errors ++ [.badLabelName n (stage1LabelName line)] },
            false)) ∧
      Stage1.secondPassAux s n (line :: rest) = Stage1.secondPassAux s (n + 1) rest) ∧
    ((cleanLine line).isEmpty = false → (cleanLine line).getLast? ≠ some ':' →
      ∀ p0 tl, Py.tokens (cleanLine line) = p0 :: tl →
        (∀ opc, commands (Py.upper p0) = some opc →
          Stage1.firstPassAux s n (line :: rest) =
            Stage1.firstPassAux { s with instructions := s.instructions ++ [0] }
              (n + 1) rest ∧
          Stage1.secondPassAux s n (line :: rest) =
            (match Stage1.encOperands { s with instructions := s.instructions ++ [opc] }
                n tl with
             | (s2, true) => Stage1.secondPassAux s2 (n + 1) rest
             | (s2, false) => (s2, false))) ∧
        ((commands (Py.upper p0)).isSome = false →
          Stage1.firstPassAux s n (line :: rest) =
            ({ s with errors := s.errors ++ [.unknownCommand n (Py.upper p0)] },
              false))) := by
  constructor
  · intro h1
    have hne : (cleanLine line).isEmpty = false := by
      cases hcl : cleanLine line with
      | nil => rw [hcl] at h1; simp at h1
      | cons c cs => simp
    refine ⟨fun hid hnew => ?_, fun hid => ?_, ?_⟩
    · simp [Stage1.firstPassAux, hne, h1, hid, hnew]
    · simp [Stage1.firstPassAux, hne, h1, hid]
    · simp [Stage1.secondPassAux, hne, h1]
  · intro hne hnc p0 tl htok
    refine ⟨fun opc hopc => ⟨?_, ?_⟩, fun hopc => ?_⟩
    · simp [Stage1.firstPassAux, hne, hnc, htok, hopc]
    · simp [Stage1.secondPassAux, hne, hnc, htok, hopc]
    · have hnone : commands (Py.upper p0) = none := by
        cases h : commands (Py.upper p0) <;> simp_all
      simp [Stage1.firstPassAux, hne, hnc, htok, hnone]

/-- C8 amended, witness: the line 1X: ends in a colon but declares an
invalid identifier, so stage 1 pass 1 records the error without
registering it; the line X: HALT does not end in a colon, so it is not
a label - pass 1 treats X: as an unknown command and touches no label;
and the plain statement HALT stays in the pass 2 stream and is encoded
to its opcode byte. -/
theorem c8_stage1_label_rules_witness :
    (Stage1.firstPassAux Stage1.initState 1 ["1X:"] =
      ({ Stage1.initState with errors := [.badLabelName 1 "1X"] }, false)) ∧
    (Stage1.firstPassAux Stage1.initState 1 ["X: HALT"] =
      ({ Stage1.initState with errors := [.unknownCommand 1 "X:"] }, false)) ∧
    (Stage1.secondPassAux Stage1.initState 1 ["HALT"] =
      (⟨[0x10], fun _ => none, [], []⟩, true)) :=
  ⟨((c8_stage1_label_rules Stage1.initState 1 "1X:" []).1 (by decide)).2.1 (by decide),
   ((c8_stage1_label_rules Stage1.initState 1 "X: HALT" []).2 (by decide) (by decide)
      "X:" ["HALT"] (by decide)).2 (by decide),
   ((((c8_stage1_label_rules Stage1.initState 1 "HALT" []).2 (by decide) (by decide)
      "HALT" [] (by decide)).1 0x10 (by decide)).2).trans rfl⟩

/-- C9 amended: a second assemble call on the same stage 2 object is
not identical to the first - it appends a second copy of the first
run's work: the label table is unchanged (replaying the same
assignments is idempotent), while the instruction list, the diagnostic
list and hence the machine-code byte stream are doubled. -/
theorem c9_stage2_rerun_appends (lines : List String) :
    (Stage2.assemble (Stage2.assemble Stage2.initState lines) lines).labels =
      (Stage2.assemble Stage2.initState lines).labels ∧
    (Stage2.assemble (Stage2.assemble Stage2.initState lines) lines).instructions =
      (Stage2.assemble Stage2.initState lines).instructions ++
        (Stage2.assemble Stage2.initState lines).instructions ∧
    (Stage2.assemble (Stage2.assemble Stage2.initState lines) lines).errors =
      (Stage2.assemble Stage2.initState lines).errors ++
        (Stage2.assemble Stage2.initState lines).errors ∧
    Stage2.machineCode
        (Stage2.assemble (Stage2.assemble Stage2.initState lines) lines).instructions =
      Stage2.machineCode (Stage2.assemble Stage2.initState lines).instructions ++
        Stage2.machineCode (Stage2.assemble Stage2.initState lines).instructions := by
  have hL : Stage2.firstPassAux 0 lines (Stage2.firstPassAux 0 lines (fun _ => none)) =
      Stage2.firstPassAux 0 lines (fun _ => none) := by
    rw [firstPassAux_eq_applyUpds, firstPassAux_eq_applyUpds, applyUpds_idem]
  refine ⟨?_, ?_, ?_, ?_⟩ <;>
    simp [Stage2.assemble, hL, Stage2.machineCode, Stage2.initState]

/-- C10 amended: the stage 2 encoder accepts a register name,
case-insensitively, as the second LOAD operand and encodes it as the
register index: the statement is accepted without diagnostic.  (The
stage 1 assembler accepts only the exact uppercase names, per the
counterexample.) -/
theorem c10_stage2_load_register (L : Labels) (n addr : Nat) (p0 r t : String)
    (rest : List String) (ri ti : Nat)
    (hp0 : Py.upper p0 = "LOAD")
    (hr : registers (Py.upper r) = some ri)
    (ht : registers (Py.upper t) = some ti) :
    Stage2.execLine L n addr p0 (r :: t :: rest) =
      .ok ⟨"LOAD", 0x01, [ri, ti], n, addr⟩ := by
  have hti : ti ≤ 3 := by
    simp only [registers] at ht
    split_ifs at ht <;> simp_all <;> omega
  have hv : Stage2.regOrNumValue t = some (ti : Int) := by
    simp [Stage2.regOrNumValue, ht]
  have hcond : (0 : Int) ≤ (ti : Int) ∧ (ti : Int) ≤ 255 := by omega
  simp [Stage2.execLine, hp0, hr, hv, hcond, commands]

/-- C10 amended, witness: load A b - lowercase mnemonic and lowercase
register operand - is accepted and encoded as 01 00 01. -/
theorem c10_stage2_load_register_witness :
    Stage2.execLine (fun _ => none) 1 0 "load" ["A", "b"] =
      .ok ⟨"LOAD", 0x01, [0, 1], 1, 0⟩ :=
  c10_stage2_load_register (fun _ => none) 1 0 "load" "A" "b" [] 0 1
    (by decide) (by decide) (by decide)
